import Mathlib

/-
Verification of the pico-audio streaming players.

This file gives a shallow embedding of the streaming-pipeline core of the
repository and proves properties of it:

* `NativeC`   — src/mp3-player-native-c/src/main.c and mp3_decoder.c
                (single MP3 player, 32768-sample ring buffer, DMA callback);
* `NMP3`      — src/native-mp3-player/src/main.cpp (four MP3 players);
* `Pio`       — src/platformio-sdio-wavplayer/src/main.cpp (ten WAV players,
                4096-sample ring buffers, 128-sample audio-queue chunks);
* `PicoAudio` — src/platformio-sdio-wavplayer/lib/pico-audio/AudioOutputI2S.h.

Machine integers are modelled by `Nat`/`Int`; the only places where C overflow
semantics matter (the `(int16_t)` casts in the downmix code) are modelled
explicitly by `toInt16`.  The opaque minimp3 decode primitive is modelled as a
function parameter `dec : List Nat → DecodeResult`.  Fixed-size byte/sample
arrays whose valid contents always start at offset 0 (the MP3 staging buffers)
are modelled as the list of their valid bytes, so that `fill_level` is the
length of the list.  Files are modelled as lists (of bytes, or of decoded
16-bit samples) together with an explicit read cursor.
-/

/-- C cast `(int16_t)x`: wrap-around (two's complement) reduction of an
integer to the range [-32768, 32767].  `%` on `Int` is `Int.emod`, whose
result is non-negative for a positive modulus, which makes this the usual
wrap-around cast. -/
def toInt16 (x : Int) : Int := (x + 32768) % 65536 - 32768

namespace NativeC

/-- `AUDIO_BUFFER_SIZE` in main.c: capacity (in samples) of the decoded-audio
ring buffer. -/
def AUDIO_BUFFER_SIZE : Nat := 32768

/-- `MP3_BUFFER_SIZE` in main.c: capacity (in bytes) of the compressed
staging buffer. -/
def MP3_BUFFER_SIZE : Nat := 8192

/-- `MP3_READ_CHUNK` in main.c: SD read chunk size in bytes. -/
def MP3_READ_CHUNK : Nat := 2048

/-- Format metadata reported by a successful decode
(`mp3_frame_info_t` in mp3_decoder.h). -/
structure FrameInfo where
  sample_rate : Nat
  channels : Nat
  bitrate_kbps : Nat
  frame_bytes : Nat
deriving Repr, DecidableEq

/-- Outcome of one call to the opaque decode primitive
(`mp3dec_decode_frame`): either a decoded frame (`samples > 0`, the pcm list
holding the `samples` decoded 16-bit values) or no valid frame at offset 0
(`samples <= 0`). -/
inductive DecodeResult where
  | frame (pcm : List Int) (info : FrameInfo)
  | noFrame
deriving Repr, DecidableEq

/-- The `mp3_player_t` struct of main.c.  `mp3_buffer` is the list of the
`mp3_fill` valid staging bytes (compaction keeps them at offset 0), so the
fill level is `mp3_buffer.length`.  `audio_buffer` is the ring-buffer backing
array. -/
structure MP3Player where
  file_open : Bool
  file_size : Nat
  file_position : Nat
  playing : Bool
  stop_requested : Bool
  eof : Bool
  mp3_buffer : List Nat
  audio_buffer : List Int
  write_pos : Nat
  read_pos : Nat
  available : Nat
  frames_decoded : Nat
  samples_decoded : Nat
  underruns : Nat
  bytes_read : Nat
  sample_rate : Nat
  channels : Nat
  bitrate : Nat
deriving Repr, DecidableEq

/-- `mp3_decoder_convert_to_mono` in mp3_decoder.c: averages consecutive
(L, R) pairs in widened (int32) arithmetic with C truncating division
(`Int.tdiv`), casting the result back to `int16_t`; produces
`stereo_samples / 2` mono samples. -/
def mp3_decoder_convert_to_mono (stereo : List Int) : List Int :=
  (List.range (stereo.length / 2)).map fun i =>
    toInt16 (Int.tdiv (stereo.getD (i * 2) 0 + stereo.getD (i * 2 + 1) 0) 2)

/-- The ring-buffer write loop of `decode_mp3_frame` (main.c lines 560-564):
`for (i = 0; i < mono_samples && available < AUDIO_BUFFER_SIZE; i++)` —
copies samples one at a time while there is space, advancing `write_pos`
modulo the capacity and incrementing `available`; excess samples are
dropped. -/
def pushLoop (buf : List Int) (writePos avail : Nat) : List Int → List Int × Nat × Nat
  | [] => (buf, writePos, avail)
  | x :: xs =>
    if avail < AUDIO_BUFFER_SIZE then
      pushLoop (buf.set writePos x) ((writePos + 1) % AUDIO_BUFFER_SIZE) (avail + 1) xs
    else
      (buf, writePos, avail)

/-- `decode_mp3_frame` in main.c (lines 504-593), with the opaque decoder
passed in as `dec`.  Returns the new player state and the C function's
boolean result. -/
def decode_mp3_frame (dec : List Nat → DecodeResult) (p : MP3Player) : MP3Player × Bool :=
  if p.mp3_buffer.length = 0 then
    if p.eof then
      ({ p with file_open := false, playing := false }, false)
    else
      (p, false)
  else
    match dec p.mp3_buffer with
    | DecodeResult.frame pcm info =>
      let p1 := { p with frames_decoded := p.frames_decoded + 1 }
      let p2 :=
        if p1.frames_decoded = 1 then
          { p1 with sample_rate := info.sample_rate, channels := info.channels,
                    bitrate := info.bitrate_kbps }
        else p1
      let mono := if info.channels = 2 then mp3_decoder_convert_to_mono pcm else pcm
      let r := pushLoop p2.audio_buffer p2.write_pos p2.available mono
      let p3 := { p2 with audio_buffer := r.1, write_pos := r.2.1, available := r.2.2,
                          samples_decoded := p2.samples_decoded + mono.length }
      let p4 :=
        if 0 < info.frame_bytes ∧ info.frame_bytes ≤ p3.mp3_buffer.length then
          { p3 with mp3_buffer := p3.mp3_buffer.drop info.frame_bytes }
        else p3
      (p4, true)
    | DecodeResult.noFrame =>
      if 0 < p.mp3_buffer.length then
        ({ p with mp3_buffer := p.mp3_buffer.drop 1 }, false)
      else
        (p, false)

/-- `read_mp3_data` in main.c (lines 471-502): refills the staging buffer
from the file (modelled as the byte list `fileData` read at
`file_position`), reading up to `min(space, MP3_READ_CHUNK)` bytes; a short
read sets `eof`. -/
def read_mp3_data (fileData : List Nat) (p : MP3Player) : MP3Player :=
  if p.file_open = false ∨ p.eof = true then p
  else
    let space := MP3_BUFFER_SIZE - p.mp3_buffer.length
    if space = 0 then p
    else
      let to_read := min space MP3_READ_CHUNK
      let chunk := (fileData.drop p.file_position).take to_read
      { p with mp3_buffer := p.mp3_buffer ++ chunk,
               file_position := p.file_position + chunk.length,
               bytes_read := p.bytes_read + chunk.length,
               eof := if chunk.length < to_read then true else p.eof }

/-- `audio_callback` in main.c (lines 599-624): the consumer.  Returns the
chunk written into the DMA buffer and the new player state.  Not playing:
a full chunk of zeros.  `available >= num_samples`: copy `num_samples`
samples from `read_pos`.  Otherwise: a full chunk of zeros and
`underruns++`, with `available` and `read_pos` untouched. -/
def audio_callback (num_samples : Nat) (p : MP3Player) : List Int × MP3Player :=
  if p.playing = false then
    (List.replicate num_samples 0, p)
  else if num_samples ≤ p.available then
    ((List.range num_samples).map fun i =>
        p.audio_buffer.getD ((p.read_pos + i) % AUDIO_BUFFER_SIZE) 0,
     { p with read_pos := (p.read_pos + num_samples) % AUDIO_BUFFER_SIZE,
              available := p.available - num_samples })
  else
    (List.replicate num_samples 0, { p with underruns := p.underruns + 1 })

/-- `stop_playback` in main.c (lines 338-354), producer-visible effect: the
command side sets `stop_requested`; Core1 later performs the teardown
(modelled by `PlayerOp.stopClear`). -/
def stop_playback (p : MP3Player) : MP3Player :=
  { p with stop_requested := true }

/-- The `stop` branch of `process_command` in main.c (lines 260-267):
`stop_playback` is invoked only when `player.playing`; otherwise only
"Not playing" is printed and nothing changes. -/
def process_command_stop (p : MP3Player) : MP3Player :=
  if p.playing = true then stop_playback p else p

/-- One iteration of `core1_main_loop` in main.c (lines 436-468).  The
returned boolean records whether the refill/decode step was attempted, i.e.
whether the `avail < AUDIO_BUFFER_SIZE * 3 / 4` fill branch was entered. -/
def core1_tick (dec : List Nat → DecodeResult) (fileData : List Nat) (p : MP3Player) :
    MP3Player × Bool :=
  let s :=
    if p.playing && !p.stop_requested then
      if p.available < AUDIO_BUFFER_SIZE * 3 / 4 then
        let pr := if p.mp3_buffer.length < MP3_BUFFER_SIZE / 2 then read_mp3_data fileData p else p
        ((decode_mp3_frame dec pr).1, true)
      else (p, false)
    else (p, false)
  if s.1.stop_requested then
    ({ s.1 with file_open := false, playing := false, stop_requested := false }, s.2)
  else s

/-- The operations that touch a native-C player during a stream: the
producer's decode-and-write step, the consumer's chunk drain, the staging
refill, the stop request, and Core1's stop teardown. -/
inductive PlayerOp where
  | decodeStep (dec : List Nat → DecodeResult)
  | callback (n : Nat)
  | readData (fileData : List Nat)
  | stopFlag
  | stopClear

/-- State transition of one operation on a native-C player. -/
def playerStep (p : MP3Player) : PlayerOp → MP3Player
  | PlayerOp.decodeStep dec => (decode_mp3_frame dec p).1
  | PlayerOp.callback n => (audio_callback n p).2
  | PlayerOp.readData fd => read_mp3_data fd p
  | PlayerOp.stopFlag => stop_playback p
  | PlayerOp.stopClear => { p with file_open := false, playing := false, stop_requested := false }

/-- Run a sequence of operations. -/
def runOps (p : MP3Player) (ops : List PlayerOp) : MP3Player :=
  ops.foldl playerStep p

/-- `k` iterations of the decode step (the Fill Scheduler retrying decode on
successive cycles). -/
def decodeIter (dec : List Nat → DecodeResult) (k : Nat) (p : MP3Player) : MP3Player :=
  (fun q => (decode_mp3_frame dec q).1)^[k] p

end NativeC

namespace NMP3

/-- The `MP3Player` struct of src/native-mp3-player/src/main.cpp. -/
structure MP3Player where
  fileOpen : Bool
  fileSize : Nat
  filePosition : Nat
  playing : Bool
  stopRequested : Bool
  eof : Bool
  mp3Buffer : List Nat
  mp3BufferRead : Nat
  audioBuffer : List Int
  writePos : Nat
  readPos : Nat
  available : Nat
  framesDecoded : Nat
  samplesDecoded : Nat
  underruns : Nat
  bytesRead : Nat
  sampleRate : Nat
  channels : Nat
  bitrate : Nat
deriving Repr, DecidableEq

/-- `stopPlayer` in src/native-mp3-player/src/main.cpp (lines 407-424):
returns immediately when the player is not playing; otherwise sets
`stopRequested` (Core1 performs the teardown). -/
def stopPlayer (p : MP3Player) : MP3Player :=
  if p.playing = false then p else { p with stopRequested := true }

/-- `fillAudioBufferFromMP3` in src/native-mp3-player/src/main.cpp (lines
545-630) in the end-of-data regime, where `p->file.available()` is false:
the refill branch (lines 548-551, guarded by `p->file.available()`) is
skipped, so one decode is attempted directly on the staging buffer.
Success: record first-frame format, downmix a stereo frame in place
(`pcm[i] = (pcm[i*2] + pcm[i*2+1]) / 2`, int promotion then an `int16_t`
store), push into the 32768-sample ring buffer with the same
space-guarded write loop as the native C player, and drop the consumed
bytes (the source does not guard `frame_bytes <= fill`; the decoder never
consumes more than it was given, and the list model saturates).
Failure: skip one byte, and then — since the file is exhausted,
`!p->file.available()` holds — close the file, clear `playing` and set
`eof` as soon as the fill level has fallen below 128. -/
def fillAudioBufferFromMP3AtEof (dec : List Nat → NativeC.DecodeResult) (p : MP3Player) :
    MP3Player × Bool :=
  if 0 < p.mp3Buffer.length then
    match dec p.mp3Buffer with
    | NativeC.DecodeResult.frame pcm info =>
      let p1 := { p with framesDecoded := p.framesDecoded + 1 }
      let p2 :=
        if p1.framesDecoded = 1 then
          { p1 with sampleRate := info.sample_rate, channels := info.channels,
                    bitrate := info.bitrate_kbps }
        else p1
      let mono :=
        if info.channels = 2 then
          (List.range (pcm.length / 2)).map fun i =>
            toInt16 (Int.tdiv (pcm.getD (i * 2) 0 + pcm.getD (i * 2 + 1) 0) 2)
        else pcm
      let r := NativeC.pushLoop p2.audioBuffer p2.writePos p2.available mono
      let p3 := { p2 with audioBuffer := r.1, writePos := r.2.1, available := r.2.2,
                          samplesDecoded := p2.samplesDecoded + mono.length }
      let p4 :=
        if 0 < info.frame_bytes then
          { p3 with mp3Buffer := p3.mp3Buffer.drop info.frame_bytes }
        else p3
      (p4, true)
    | NativeC.DecodeResult.noFrame =>
      let p1 :=
        if 0 < p.mp3Buffer.length then { p with mp3Buffer := p.mp3Buffer.drop 1 } else p
      if p1.mp3Buffer.length < 128 then
        ({ p1 with fileOpen := false, playing := false, eof := true }, false)
      else
        (p1, false)
  else
    (p, false)

/-- `k` invocations of the end-of-data fill step (the Core1 service loop
retrying on successive passes). -/
def fillIter (dec : List Nat → NativeC.DecodeResult) (k : Nat) (p : MP3Player) : MP3Player :=
  (fun q => (fillAudioBufferFromMP3AtEof dec q).1)^[k] p

end NMP3

namespace Pio

/-- `BUFFER_SIZE` in src/platformio-sdio-wavplayer/src/main.cpp: per-player
circular-buffer capacity in samples. -/
def BUFFER_SIZE : Nat := 4096

/-- The `WavPlayer` struct of src/platformio-sdio-wavplayer/src/main.cpp.
`fileOpen` models the `File` handle being truthy; `fileCursor` is the file's
read position within the data chunk, counted in 16-bit samples (the data
chunk is modelled as a list of decoded 16-bit sample values). -/
structure WavPlayer where
  fileOpen : Bool
  fileCursor : Nat
  playing : Bool
  stopRequested : Bool
  dataSize : Nat
  dataPosition : Nat
  numChannels : Nat
  buffer : List Int
  bufferReadPos : Nat
  bufferWritePos : Nat
  bufferAvailable : Nat
  underrunCount : Nat
  core1ReadCount : Nat
deriving Repr, DecidableEq

/-- `serviceAudioQueue` in main.cpp (lines 291-322), after the queue has
granted a 128-sample buffer: on `bufferAvailable < 128` emit 128 zeros and
increment `underrunCount`, leaving `bufferReadPos` and `bufferAvailable`
untouched; otherwise drain 128 samples.  Returns the chunk handed to the
audio queue and the new state. -/
def serviceAudioQueue (w : WavPlayer) : List Int × WavPlayer :=
  if w.bufferAvailable < 128 then
    (List.replicate 128 0, { w with underrunCount := w.underrunCount + 1 })
  else
    ((List.range 128).map fun i => w.buffer.getD ((w.bufferReadPos + i) % BUFFER_SIZE) 0,
     { w with bufferReadPos := (w.bufferReadPos + 128) % BUFFER_SIZE,
              bufferAvailable := w.bufferAvailable - 128 })

/-- The consumer invocation as performed by `loop()` (lines 250-254):
`serviceAudioQueue` runs only for a playing player. -/
def consumerFire (w : WavPlayer) : Option (List Int) × WavPlayer :=
  if w.playing = true then
    let r := serviceAudioQueue w
    (some r.1, r.2)
  else (none, w)

/-- `stopPlayer` in main.cpp (lines 352-366): sets `stopRequested`
unconditionally (there is no `playing` guard; the wait loop performs no
state writes of its own). -/
def stopPlayer (w : WavPlayer) : WavPlayer :=
  { w with stopRequested := true }

/-- The per-player effect of `stopAll` in main.cpp (lines 368-375):
`stopPlayer` is invoked only for playing players. -/
def stopAllStep (w : WavPlayer) : WavPlayer :=
  if w.playing = true then stopPlayer w else w

/-- The stop-request handling of `core1_servicePlayer` (lines 469-476): only
when a stop is requested and the file is open does Core1 close the file and
clear `playing` and `stopRequested`. -/
def core1_stopCheck (w : WavPlayer) : WavPlayer :=
  if w.stopRequested && w.fileOpen then
    { w with fileOpen := false, playing := false, stopRequested := false }
  else w

/-- The `WavHeader` struct of main.cpp (the first 36 bytes of the file,
fields already decoded). -/
structure WavHeader where
  riff : List Nat
  fileSize : Nat
  wave : List Nat
  fmt : List Nat
  fmtSize : Nat
  audioFormat : Nat
  numChannels : Nat
  sampleRate : Nat
  byteRate : Nat
  blockAlign : Nat
  bitsPerSample : Nat
deriving Repr, DecidableEq

/-- The four bytes "RIFF". -/
def riffTag : List Nat := [82, 73, 70, 70]

/-- The four bytes "WAVE". -/
def waveTag : List Nat := [87, 65, 86, 69]

/-- The four bytes "data". -/
def dataTag : List Nat := [100, 97, 116, 97]

/-- The data-chunk scan loop of `core1_openFile` (lines 521-536): the chunks
following the header are modelled as a list of (tag, declared length) pairs;
the loop reads tags in order, skipping non-"data" chunks by their length,
and returns the declared length of the first "data" chunk, if any. -/
def findDataChunk : List (List Nat × Nat) → Option Nat
  | [] => none
  | c :: rest => if c.1 = dataTag then some c.2 else findDataChunk rest

/-- `core1_openFile` in main.cpp (lines 484-544).  `openOk` models
`SD.open` succeeding and the 36 header bytes being readable; `hdr` is the
decoded header and `chunks` the chunk list that follows it.  On any failed
check the file is closed and `playing` is cleared; on success
`numChannels` and `dataSize` are recorded.  (Channel count and sample rate
are not validated by this function.) -/
def core1_openFile (openOk : Bool) (hdr : WavHeader) (chunks : List (List Nat × Nat))
    (w : WavPlayer) : WavPlayer :=
  if openOk = false then
    { w with fileOpen := false, playing := false }
  else if ¬ (hdr.riff = riffTag ∧ hdr.wave = waveTag ∧ hdr.audioFormat = 1 ∧
             hdr.bitsPerSample = 16) then
    { w with fileOpen := false, playing := false }
  else
    let w1 := { w with numChannels := hdr.numChannels, fileOpen := true }
    match findDataChunk chunks with
    | some sz => { w1 with dataSize := sz }
    | none => { w1 with fileOpen := false, playing := false }

/-- The circular-buffer write loop of `core1_fillBuffer`
(`player->buffer[writePos] = ...; writePos = (writePos + 1) % BUFFER_SIZE`). -/
def writeSamples (buf : List Int) (wp : Nat) : List Int → List Int × Nat
  | [] => (buf, wp)
  | x :: xs => writeSamples (buf.set wp x) ((wp + 1) % BUFFER_SIZE) xs

/-- `core1_fillBuffer` in main.cpp (lines 546-607).  `fileData` is the data
chunk as a list of 16-bit sample values, read at `fileCursor`.  The boolean
records whether the occupancy gate was passed (the early
`available > BUFFER_SIZE * 3 / 4` return not taken).  In the stereo branch
the loop runs `samplesToRead / 2` times, each iteration reading an (L, R)
pair and writing one downmixed sample, yet `bufferAvailable` is incremented
by `samplesToRead` and `dataPosition` by `bytesToRead`. -/
def core1_fillBuffer (fileData : List Int) (w : WavPlayer) : WavPlayer × Bool :=
  if w.bufferAvailable > BUFFER_SIZE * 3 / 4 then
    (w, false)
  else
    if w.dataSize - w.dataPosition = 0 then
      ({ w with fileOpen := false, playing := false }, true)
    else
      let bytesRemaining := w.dataSize - w.dataPosition
      let spaceAvailable := BUFFER_SIZE - w.bufferAvailable
      let s0 := min spaceAvailable 2048
      let bytesToRead := min (s0 * 2) bytesRemaining
      let samplesToRead := bytesToRead / 2
      if w.numChannels = 1 then
        let r := writeSamples w.buffer w.bufferWritePos
          ((fileData.drop w.fileCursor).take samplesToRead)
        ({ w with buffer := r.1, bufferWritePos := r.2,
                  fileCursor := w.fileCursor + samplesToRead,
                  dataPosition := w.dataPosition + bytesToRead,
                  bufferAvailable := w.bufferAvailable + samplesToRead,
                  core1ReadCount := w.core1ReadCount + 1 }, true)
      else
        let pairs := samplesToRead / 2
        let mono := (List.range pairs).map fun i =>
          toInt16 (Int.tdiv
            (fileData.getD (w.fileCursor + 2 * i) 0 +
             fileData.getD (w.fileCursor + 2 * i + 1) 0) 2)
        let r := writeSamples w.buffer w.bufferWritePos mono
        ({ w with buffer := r.1, bufferWritePos := r.2,
                  fileCursor := w.fileCursor + 2 * pairs,
                  dataPosition := w.dataPosition + bytesToRead,
                  bufferAvailable := w.bufferAvailable + samplesToRead,
                  core1ReadCount := w.core1ReadCount + 1 }, true)

/-- The operations that touch a WAV player's circular buffer during a
stream: Core1's fill step, Core0's consumer invocation, the stop request and
Core1's stop handling. -/
inductive PioOp where
  | fill (fileData : List Int)
  | service
  | stopReq
  | stopHandle

/-- State transition of one operation on a WAV player. -/
def playerStep (w : WavPlayer) : PioOp → WavPlayer
  | PioOp.fill f => (core1_fillBuffer f w).1
  | PioOp.service => (consumerFire w).2
  | PioOp.stopReq => stopPlayer w
  | PioOp.stopHandle => core1_stopCheck w

/-- Run a sequence of operations. -/
def runOps (w : WavPlayer) (ops : List PioOp) : WavPlayer :=
  ops.foldl playerStep w

end Pio

namespace PicoAudio

/-- The per-sample value written by `AudioOutputI2S::update`
(AudioOutputI2S.h lines 58-59): a missing input block, or a sample equal to
0, is rendered as 1 — the anti-pop workaround for DACs that power down on
true silence. -/
def sampleOf : Option (List Int) → Nat → Int
  | none, _ => 1
  | some d, i => if d.getD i 0 = 0 then 1 else d.getD i 0

/-- `AudioOutputI2S::update` (AudioOutputI2S.h lines 49-69): the interleaved
`tmp` buffer written to the I2S peripheral, `tmp[i*2] = sampleL * 65536` and
`tmp[i*2+1] = sampleR * 65536` for `i < n` block samples. -/
def update (n : Nat) (left right : Option (List Int)) : List Int :=
  (List.range (2 * n)).map fun j =>
    if j % 2 = 0 then sampleOf left (j / 2) * 65536
    else sampleOf right (j / 2) * 65536

end PicoAudio

namespace PlaySd

/-- `STATE_STOP` in src/src/play_sd_wav.cpp. -/
def STATE_STOP : Nat := 0

/-- `STATE_PARSE1` in play_sd_wav.cpp (reading the first header chunk). -/
def STATE_PARSE1 : Nat := 1

/-- `STATE_PARSE2` in play_sd_wav.cpp. -/
def STATE_PARSE2 : Nat := 2

/-- `STATE_PARSE3` in play_sd_wav.cpp (looking for the data chunk). -/
def STATE_PARSE3 : Nat := 3

/-- `STATE_PLAY` in play_sd_wav.cpp (playing audio data). -/
def STATE_PLAY : Nat := 6

/-- The header-parsing state of an `AudioPlaySdWav` object
(declarations in play_sd_wav.h, which is not in the repository snapshot;
fields and sizes are taken from their uses in play_sd_wav.cpp).  `header`
is the `uint32_t header[8]` array viewed as its 32 bytes — parse bytes are
written one at a time through `((uint8_t *)header)[header_offset++]`;
`buffer` is the current 512-byte read chunk; `file_position` is the read
cursor of `wavfile` into the file contents. -/
structure PlaySdWav where
  state : Nat
  header : List Nat
  header_offset : Nat
  buffer : List Nat
  buffer_offset : Nat
  buffer_length : Nat
  file_position : Nat
  data_length : Nat
  total_length : Nat
  bytes2millis : Nat
deriving Repr, DecidableEq

/-- Word `j` of the header array: four bytes assembled little-endian, as on
the target (RP2350). -/
def headerWord (h : List Nat) (j : Nat) : Nat :=
  h.getD (4 * j) 0 + 256 * h.getD (4 * j + 1) 0 + 65536 * h.getD (4 * j + 2) 0 +
    16777216 * h.getD (4 * j + 3) 0

/-- The code after `parse_format`'s while loop (lines 328-340): reached only
when the loop's `state != STATE_PLAY` condition fails, it checks for a
"data" chunk in `STATE_PARSE3` — dead in practice, kept for fidelity. -/
def parsePost (s : PlaySdWav) : PlaySdWav × Bool :=
  if s.state = STATE_PARSE3 then
    if 18 ≤ s.header_offset then
      if headerWord s.header 3 = 0x61746164 then
        ({ s with data_length := headerWord s.header 4,
                  total_length := headerWord s.header 4, state := STATE_PLAY }, true)
      else (s, false)
    else (s, false)
  else (s, false)

/-- The byte-consume step of the parse loop (line 263):
`((uint8_t *)header)[header_offset++] = buffer[buffer_offset++]`. -/
def writeByte (s : PlaySdWav) : PlaySdWav :=
  { s with header := s.header.set s.header_offset (s.buffer.getD s.buffer_offset 0),
           header_offset := s.header_offset + 1,
           buffer_offset := s.buffer_offset + 1 }

/-- The `header_offset == 16` block (lines 272-290): validate the RIFF and
WAVE magic words — `none` is `goto abort` — and bump the offset past 16. -/
def applyStep16 (s1 : PlaySdWav) : Option PlaySdWav :=
  if s1.header_offset = 16 then
    if headerWord s1.header 0 = 0x46464952 then
      if headerWord s1.header 2 = 0x45564157 then
        some { s1 with header_offset := s1.header_offset + 1 }
      else none
    else none
  else some s1

/-- The `header_offset == 17` block (lines 292-303): accept an "fmt " tag
(bump to 18) or slide the first four header words down one
(`header[0] = header[1]; ...`) and rescan from offset 16. -/
def applyStep17 (s2 : PlaySdWav) : PlaySdWav :=
  if s2.header_offset = 17 then
    if headerWord s2.header 3 = 0x20746d66 then
      { s2 with header_offset := s2.header_offset + 1 }
    else
      { s2 with header_offset := 16,
                header := (s2.header.drop 4).take 12 ++
                          (s2.header.drop 12).take 4 ++ s2.header.drop 16 }
  else s2

/-- The `header_offset >= 18` block (lines 305-325): extract the format
fields from header words 4-7 and validate PCM (`format == 1`), stereo
(`channels == 2`) and 16-bit — `none` is `goto abort` — then record
`bytes2millis` and move to `STATE_PARSE3`. -/
def applyStep18 (s3 : PlaySdWav) : Option PlaySdWav :=
  if 18 ≤ s3.header_offset then
    if headerWord s3.header 4 % 65536 = 1 then
      if headerWord s3.header 4 / 65536 = 2 then
        if headerWord s3.header 7 / 65536 = 16 then
          some { s3 with bytes2millis := headerWord s3.header 6 / 1000,
                         header_offset := 16, state := STATE_PARSE3 }
        else none
      else none
    else none
  else some s3

/-- The offset-16, offset-17 and offset-18 blocks of one loop iteration run
in order on the state after the byte write.  `Sum.inl` is a `goto abort` —
`stop()` applied to the state at the abort point, the loop returning false —
and `Sum.inr` continues the loop. -/
def parseIterOutcome (s1 : PlaySdWav) : Sum PlaySdWav PlaySdWav :=
  match applyStep16 s1 with
  | none => Sum.inl { s1 with state := STATE_STOP }
  | some s2 =>
    match applyStep18 (applyStep17 s2) with
    | none => Sum.inl { applyStep17 s2 with state := STATE_STOP }
    | some s4 => Sum.inr s4

/-- The `while (state != STATE_PLAY)` loop of `parse_format` (lines
254-326).  Each iteration consumes exactly one buffer byte, so the loop is
run with `buffer_length - buffer_offset` as fuel; the fuel-exhausted case
coincides with the loop's own `buffer_offset >= buffer_length` return.
One iteration: write the byte into the header array; below 16 bytes keep
reading; otherwise run the offset blocks (`parseIterOutcome`), aborting or
continuing as they decide. -/
def parseLoop : Nat → PlaySdWav → PlaySdWav × Bool
  | 0, s =>
    if s.state = STATE_PLAY then parsePost s
    else (s, false)
  | fuel + 1, s =>
    if s.state = STATE_PLAY then parsePost s
    else if s.buffer_length ≤ s.buffer_offset then (s, false)
    else if (writeByte s).header_offset < 16 then parseLoop fuel (writeByte s)
    else
      match parseIterOutcome (writeByte s) with
      | Sum.inl sAbort => (sAbort, false)
      | Sum.inr sNext => parseLoop fuel sNext

/-- `AudioPlaySdWav::parse_format` (lines 243-345): the while loop run to
buffer exhaustion. -/
def parse_format (s : PlaySdWav) : PlaySdWav × Bool :=
  parseLoop (s.buffer_length - s.buffer_offset) s

/-- The header-parsing path of `AudioPlaySdWav::update` (lines 96-208):
nothing in `STATE_STOP`; in `STATE_PARSE1` read the next 512-byte chunk
(`goto end` leaving the state unchanged on an empty read), move to
`STATE_PARSE2` and fall through to `parse_format`; in the other parse
states call `parse_format` once (`goto end` on its failure).  The
`STATE_PLAY` playback branch moves sample data only and is outside this
model (and unreachable from the parse states — see the C7 theorems). -/
def update (fileData : List Nat) (s : PlaySdWav) : PlaySdWav :=
  if s.state = STATE_STOP then s
  else if s.state = STATE_PARSE1 then
    let chunk := (fileData.drop s.file_position).take 512
    let s1 := { s with buffer := chunk, buffer_length := chunk.length,
                       file_position := s.file_position + chunk.length }
    if s1.buffer_length = 0 then s1
    else (parse_format { s1 with buffer_offset := 0, state := STATE_PARSE2 }).1
  else if s.state = STATE_PLAY then s
  else (parse_format s).1

/-- `AudioPlaySdWav::play` (lines 43-61): `stop()`, open the file (`openOk`
models `SD.open` succeeding; on failure the object stays stopped), then
reset the parse cursors and enter `STATE_PARSE1`.  The header array is not
cleared — it keeps the zero initialization of a static-storage object. -/
def play (openOk : Bool) (s : PlaySdWav) : PlaySdWav :=
  let s0 := { s with state := STATE_STOP }
  if openOk = false then s0
  else { s0 with buffer_length := 0, buffer_offset := 0, data_length := 0,
                 header_offset := 0, file_position := 0, state := STATE_PARSE1 }

/-- `AudioPlaySdWav::isPlaying` (lines 75-78): `state != STATE_STOP`. -/
def isPlaying (s : PlaySdWav) : Bool :=
  s.state != STATE_STOP

end PlaySd

/-- A quiescent native-C player state used to instantiate theorems on
concrete inputs. -/
def ncIdle : NativeC.MP3Player :=
  { file_open := false, file_size := 0, file_position := 0, playing := false,
    stop_requested := false, eof := false, mp3_buffer := [], audio_buffer := [],
    write_pos := 0, read_pos := 0, available := 0, frames_decoded := 0,
    samples_decoded := 0, underruns := 0, bytes_read := 0, sample_rate := 0,
    channels := 0, bitrate := 0 }

/-- A quiescent multi-stream MP3 player state. -/
def nmIdle : NMP3.MP3Player :=
  { fileOpen := false, fileSize := 0, filePosition := 0, playing := false,
    stopRequested := false, eof := false, mp3Buffer := [], mp3BufferRead := 0,
    audioBuffer := [], writePos := 0, readPos := 0, available := 0,
    framesDecoded := 0, samplesDecoded := 0, underruns := 0, bytesRead := 0,
    sampleRate := 0, channels := 0, bitrate := 0 }

/-- A quiescent WAV player state. -/
def pioIdle : Pio.WavPlayer :=
  { fileOpen := false, fileCursor := 0, playing := false, stopRequested := false,
    dataSize := 0, dataPosition := 0, numChannels := 0, buffer := [],
    bufferReadPos := 0, bufferWritePos := 0, bufferAvailable := 0,
    underrunCount := 0, core1ReadCount := 0 }

/-- A decode oracle that never finds a frame (a staging buffer with no valid
frame header anywhere). -/
def neverDecodes : List Nat → NativeC.DecodeResult :=
  fun _ => NativeC.DecodeResult.noFrame

/-- A freshly constructed `AudioPlaySdWav` object after `begin()`: stopped,
parse cursors at zero, the static-storage header array zero-initialized. -/
def sdwIdle : PlaySd.PlaySdWav :=
  { state := PlaySd.STATE_STOP, header := List.replicate 32 0, header_offset := 0,
    buffer := [], buffer_offset := 0, buffer_length := 0, file_position := 0,
    data_length := 0, total_length := 0, bytes2millis := 0 }

/-- A 16-byte file: a RIFF/WAVE container whose stream ends immediately —
its last four bytes are "LIST", and it contains no "fmt " or "data" chunk. -/
def wavNoData : List Nat :=
  [82, 73, 70, 70, 8, 0, 0, 0, 87, 65, 86, 69, 76, 73, 83, 84]

theorem tdiv_two_cases (x : Int) : Int.tdiv x 2 = if 0 ≤ x then x / 2 else -(-x / 2) := by
  rcases x with n | n
  · simp [Int.tdiv]
  · have hneg : ¬ (0 : Int) ≤ Int.negSucc n := by
      rw [Int.negSucc_eq]; omega
    rw [if_neg hneg]
    show -(((n + 1 : Nat) / 2 : Nat) : Int) = -(-Int.negSucc n / 2)
    rw [Int.negSucc_eq]
    push_cast
    omega

theorem toInt16_eq_of_bounds (x : Int) (h1 : -32768 ≤ x) (h2 : x ≤ 32767) : toInt16 x = x := by
  unfold toInt16
  rw [Int.emod_eq_of_lt (by omega) (by omega)]
  ring

theorem getD_map_range (f : Nat → Int) (n i : Nat) (h : i < n) :
    ((List.range n).map f).getD i 0 = f i := by
  have hl : i < ((List.range n).map f).length := by simp [h]
  rw [List.getD_eq_getElem _ _ hl, List.getElem_map]
  simp

theorem pushLoop_avail_ge (xs : List Int) (buf : List Int) (wp avail : Nat) :
    avail ≤ (NativeC.pushLoop buf wp avail xs).2.2 := by
  induction xs generalizing buf wp avail with
  | nil => exact Nat.le_refl _
  | cons x xs ih =>
    simp only [NativeC.pushLoop]
    split
    · exact Nat.le_trans (Nat.le_succ _) (ih _ _ _)
    · exact Nat.le_refl _

theorem pushLoop_avail_le (xs : List Int) (buf : List Int) (wp avail : Nat)
    (h : avail ≤ NativeC.AUDIO_BUFFER_SIZE) :
    (NativeC.pushLoop buf wp avail xs).2.2 ≤ NativeC.AUDIO_BUFFER_SIZE := by
  induction xs generalizing buf wp avail with
  | nil => exact h
  | cons x xs ih =>
    simp only [NativeC.pushLoop]
    split
    · exact ih _ _ _ (by omega)
    · exact h

theorem decode_avail_ge (dec : List Nat → NativeC.DecodeResult) (p : NativeC.MP3Player) :
    p.available ≤ ((NativeC.decode_mp3_frame dec p).1).available := by
  unfold NativeC.decode_mp3_frame
  split
  · split <;> simp
  · rcases hdec : dec p.mp3_buffer with ⟨pcm, info⟩ | _
    · simp only []
      split <;> split <;> simp <;> exact pushLoop_avail_ge _ _ _ _
    · simp only []
      split <;> simp

theorem decode_avail_le (dec : List Nat → NativeC.DecodeResult) (p : NativeC.MP3Player)
    (h : p.available ≤ NativeC.AUDIO_BUFFER_SIZE) :
    ((NativeC.decode_mp3_frame dec p).1).available ≤ NativeC.AUDIO_BUFFER_SIZE := by
  unfold NativeC.decode_mp3_frame
  split
  · split <;> simpa
  · rcases hdec : dec p.mp3_buffer with ⟨pcm, info⟩ | _
    · simp only []
      split <;> split <;> simp <;> exact pushLoop_avail_le _ _ _ _ h
    · simp only []
      split <;> simpa

theorem callback_avail_le (n : Nat) (p : NativeC.MP3Player) :
    ((NativeC.audio_callback n p).2).available ≤ p.available := by
  unfold NativeC.audio_callback
  split
  · exact Nat.le_refl _
  · split
    · simp
    · exact Nat.le_refl _

theorem read_avail_eq (fd : List Nat) (p : NativeC.MP3Player) :
    (NativeC.read_mp3_data fd p).available = p.available := by
  simp only [NativeC.read_mp3_data]
  split
  · rfl
  · split <;> rfl

theorem pio_fill_avail_ge (f : List Int) (w : Pio.WavPlayer) :
    w.bufferAvailable ≤ ((Pio.core1_fillBuffer f w).1).bufferAvailable := by
  simp only [Pio.core1_fillBuffer]
  split
  · exact Nat.le_refl _
  · split
    · exact Nat.le_refl _
    · split <;> simp

theorem pio_fill_avail_le (f : List Int) (w : Pio.WavPlayer)
    (h : w.bufferAvailable ≤ Pio.BUFFER_SIZE) :
    ((Pio.core1_fillBuffer f w).1).bufferAvailable ≤ Pio.BUFFER_SIZE := by
  simp only [Pio.core1_fillBuffer, Pio.BUFFER_SIZE] at h ⊢
  split
  · exact h
  · split
    · exact h
    · split <;> simp <;> omega

theorem pio_service_avail_le (w : Pio.WavPlayer) :
    ((Pio.consumerFire w).2).bufferAvailable ≤ w.bufferAvailable := by
  simp only [Pio.consumerFire, Pio.serviceAudioQueue]
  split
  · split <;> simp
  · exact Nat.le_refl _

theorem nc_step_avail_le (p : NativeC.MP3Player) (op : NativeC.PlayerOp)
    (h : p.available ≤ NativeC.AUDIO_BUFFER_SIZE) :
    (NativeC.playerStep p op).available ≤ NativeC.AUDIO_BUFFER_SIZE := by
  cases op with
  | decodeStep dec => exact decode_avail_le dec p h
  | callback n => exact Nat.le_trans (callback_avail_le n p) h
  | readData fd =>
      show (NativeC.read_mp3_data fd p).available ≤ NativeC.AUDIO_BUFFER_SIZE
      rw [read_avail_eq]; exact h
  | stopFlag => exact h
  | stopClear => exact h

theorem nc_runOps_avail_le (ops : List NativeC.PlayerOp) (p : NativeC.MP3Player)
    (h : p.available ≤ NativeC.AUDIO_BUFFER_SIZE) :
    (NativeC.runOps p ops).available ≤ NativeC.AUDIO_BUFFER_SIZE := by
  induction ops generalizing p with
  | nil => exact h
  | cons op ops ih => exact ih _ (nc_step_avail_le p op h)

theorem pio_step_avail_le (w : Pio.WavPlayer) (op : Pio.PioOp)
    (h : w.bufferAvailable ≤ Pio.BUFFER_SIZE) :
    (Pio.playerStep w op).bufferAvailable ≤ Pio.BUFFER_SIZE := by
  cases op with
  | fill f => exact pio_fill_avail_le f w h
  | service => exact Nat.le_trans (pio_service_avail_le w) h
  | stopReq => exact h
  | stopHandle =>
      show (Pio.core1_stopCheck w).bufferAvailable ≤ Pio.BUFFER_SIZE
      unfold Pio.core1_stopCheck
      split <;> exact h

theorem pio_runOps_avail_le (ops : List Pio.PioOp) (w : Pio.WavPlayer)
    (h : w.bufferAvailable ≤ Pio.BUFFER_SIZE) :
    (Pio.runOps w ops).bufferAvailable ≤ Pio.BUFFER_SIZE := by
  induction ops generalizing w with
  | nil => exact h
  | cons op ops ih => exact ih _ (pio_step_avail_le w op h)

/-- C1: For every state of a player's ring buffer reachable through the
stream operations (decode-and-write, consumer drain, staging refill, stop
request, stop teardown) from a state satisfying `available ≤ capacity`, the
occupancy stays within `0 ≤ available ≤ capacity` (the lower bound holds
because occupancy is a `Nat` and the code only subtracts under an
`available ≥ n` guard); `available` is never decreased by the producer's
decode-and-write step, never increased by the consumer's drain, and is left
unchanged by the remaining operations.  This holds both for the native C
MP3 player (capacity 32768) and for the WAV player (capacity 4096). -/
theorem C1_ring_occupancy_invariant
    (p : NativeC.MP3Player) (ops : List NativeC.PlayerOp)
    (dec : List Nat → NativeC.DecodeResult) (n : Nat) (fd : List Nat)
    (hp : p.available ≤ NativeC.AUDIO_BUFFER_SIZE)
    (w : Pio.WavPlayer) (wops : List Pio.PioOp) (f : List Int)
    (hw : w.bufferAvailable ≤ Pio.BUFFER_SIZE) :
    (NativeC.runOps p ops).available ≤ NativeC.AUDIO_BUFFER_SIZE ∧
    p.available ≤ (NativeC.playerStep p (NativeC.PlayerOp.decodeStep dec)).available ∧
    (NativeC.playerStep p (NativeC.PlayerOp.callback n)).available ≤ p.available ∧
    (NativeC.playerStep p (NativeC.PlayerOp.readData fd)).available = p.available ∧
    (NativeC.playerStep p NativeC.PlayerOp.stopFlag).available = p.available ∧
    (NativeC.playerStep p NativeC.PlayerOp.stopClear).available = p.available ∧
    (Pio.runOps w wops).bufferAvailable ≤ Pio.BUFFER_SIZE ∧
    w.bufferAvailable ≤ (Pio.playerStep w (Pio.PioOp.fill f)).bufferAvailable ∧
    (Pio.playerStep w Pio.PioOp.service).bufferAvailable ≤ w.bufferAvailable ∧
    (Pio.playerStep w Pio.PioOp.stopReq).bufferAvailable = w.bufferAvailable ∧
    (Pio.playerStep w Pio.PioOp.stopHandle).bufferAvailable = w.bufferAvailable := by
  refine ⟨nc_runOps_avail_le ops p hp, decode_avail_ge dec p, callback_avail_le n p,
          read_avail_eq fd p, rfl, rfl, pio_runOps_avail_le wops w hw,
          pio_fill_avail_ge f w, pio_service_avail_le w, rfl, ?_⟩
  show (Pio.core1_stopCheck w).bufferAvailable = w.bufferAvailable
  unfold Pio.core1_stopCheck
  split <;> rfl

/-- C1 witness: the invariant instantiated on a concrete player that pushes
a decoded frame, drains a chunk, suffers an underrun and handles a stop. -/
theorem C1_ring_occupancy_invariant_witness :
    ncIdle.available ≤ NativeC.AUDIO_BUFFER_SIZE ∧
    pioIdle.bufferAvailable ≤ Pio.BUFFER_SIZE ∧
    ((NativeC.runOps ncIdle
        [NativeC.PlayerOp.decodeStep neverDecodes, NativeC.PlayerOp.callback 512,
         NativeC.PlayerOp.readData [1, 2, 3], NativeC.PlayerOp.stopFlag,
         NativeC.PlayerOp.stopClear]).available ≤ NativeC.AUDIO_BUFFER_SIZE ∧
     ncIdle.available ≤ (NativeC.playerStep ncIdle
        (NativeC.PlayerOp.decodeStep neverDecodes)).available ∧
     (NativeC.playerStep ncIdle (NativeC.PlayerOp.callback 512)).available ≤ ncIdle.available ∧
     (NativeC.playerStep ncIdle (NativeC.PlayerOp.readData [1, 2, 3])).available =
        ncIdle.available ∧
     (NativeC.playerStep ncIdle NativeC.PlayerOp.stopFlag).available = ncIdle.available ∧
     (NativeC.playerStep ncIdle NativeC.PlayerOp.stopClear).available = ncIdle.available ∧
     (Pio.runOps pioIdle [Pio.PioOp.fill [7, 7], Pio.PioOp.service, Pio.PioOp.stopReq,
        Pio.PioOp.stopHandle]).bufferAvailable ≤ Pio.BUFFER_SIZE ∧
     pioIdle.bufferAvailable ≤ (Pio.playerStep pioIdle (Pio.PioOp.fill [7, 7])).bufferAvailable ∧
     (Pio.playerStep pioIdle Pio.PioOp.service).bufferAvailable ≤ pioIdle.bufferAvailable ∧
     (Pio.playerStep pioIdle Pio.PioOp.stopReq).bufferAvailable = pioIdle.bufferAvailable ∧
     (Pio.playerStep pioIdle Pio.PioOp.stopHandle).bufferAvailable = pioIdle.bufferAvailable) :=
  ⟨by decide, by decide,
   C1_ring_occupancy_invariant ncIdle
     [NativeC.PlayerOp.decodeStep neverDecodes, NativeC.PlayerOp.callback 512,
      NativeC.PlayerOp.readData [1, 2, 3], NativeC.PlayerOp.stopFlag,
      NativeC.PlayerOp.stopClear]
     neverDecodes 512 [1, 2, 3] (by decide) pioIdle
     [Pio.PioOp.fill [7, 7], Pio.PioOp.service, Pio.PioOp.stopReq, Pio.PioOp.stopHandle]
     [7, 7] (by decide)⟩

/-- C2: When the consumer fires on a playing player whose occupancy is below
the fixed chunk size, it hands the sink a full chunk of silence, leaves the
occupancy and read index (and every other buffer field) unchanged, and
increments the underrun counter by exactly one — never a partial chunk.
Shown for the WAV player (chunk 128) and the native C player (chunk size
`n`, 512 in the DMA callback). -/
theorem C2_underrun_all_or_nothing (w : Pio.WavPlayer) (p : NativeC.MP3Player) (n : Nat)
    (hw : w.playing = true) (hav : w.bufferAvailable < 128)
    (hp : p.playing = true) (hpav : p.available < n) :
    Pio.consumerFire w =
      (some (List.replicate 128 0), { w with underrunCount := w.underrunCount + 1 }) ∧
    NativeC.audio_callback n p =
      (List.replicate n 0, { p with underruns := p.underruns + 1 }) := by
  constructor
  · simp only [Pio.consumerFire, Pio.serviceAudioQueue, hw, if_pos hav, if_true]
  · simp only [NativeC.audio_callback, hp]
    rw [if_neg (by simp), if_neg (by omega)]

/-- C2 witness: the spec scenario — occupancy 50 against chunk size 128. -/
theorem C2_underrun_all_or_nothing_witness :
    (50 : Nat) < 128 ∧
    Pio.consumerFire { pioIdle with playing := true, bufferAvailable := 50 } =
      (some (List.replicate 128 0),
       { { pioIdle with playing := true, bufferAvailable := 50 } with
           underrunCount :=
             ({ pioIdle with playing := true, bufferAvailable := 50 } :
                Pio.WavPlayer).underrunCount + 1 }) ∧
    NativeC.audio_callback 128 { ncIdle with playing := true, available := 50 } =
      (List.replicate 128 0,
       { { ncIdle with playing := true, available := 50 } with
           underruns :=
             ({ ncIdle with playing := true, available := 50 } :
                NativeC.MP3Player).underruns + 1 }) := by
  have h := C2_underrun_all_or_nothing
    { pioIdle with playing := true, bufferAvailable := 50 }
    { ncIdle with playing := true, available := 50 } 128
    rfl (by decide) rfl (by decide)
  exact ⟨by decide, h.1, h.2⟩

/-- C3: One failed decode attempt on a non-empty staging buffer removes
exactly one byte from the front of the staging buffer (the remaining bytes
shifted to offset 0, the fill level down by exactly one), pushes nothing to
the ring buffer, and changes no counters. -/
theorem C3_resync_skips_one_byte (dec : List Nat → NativeC.DecodeResult)
    (p : NativeC.MP3Player) (hne : p.mp3_buffer ≠ [])
    (hd : dec p.mp3_buffer = NativeC.DecodeResult.noFrame) :
    NativeC.decode_mp3_frame dec p = ({ p with mp3_buffer := p.mp3_buffer.drop 1 }, false) ∧
    ((NativeC.decode_mp3_frame dec p).1).mp3_buffer.length + 1 = p.mp3_buffer.length ∧
    ((NativeC.decode_mp3_frame dec p).1).available = p.available ∧
    ((NativeC.decode_mp3_frame dec p).1).audio_buffer = p.audio_buffer ∧
    ((NativeC.decode_mp3_frame dec p).1).write_pos = p.write_pos ∧
    ((NativeC.decode_mp3_frame dec p).1).frames_decoded = p.frames_decoded ∧
    ((NativeC.decode_mp3_frame dec p).1).samples_decoded = p.samples_decoded ∧
    ((NativeC.decode_mp3_frame dec p).1).underruns = p.underruns ∧
    ((NativeC.decode_mp3_frame dec p).1).bytes_read = p.bytes_read := by
  have hlen : 0 < p.mp3_buffer.length := List.length_pos.mpr hne
  have heq : NativeC.decode_mp3_frame dec p =
      ({ p with mp3_buffer := p.mp3_buffer.drop 1 }, false) := by
    unfold NativeC.decode_mp3_frame
    rw [if_neg (by omega), hd, if_pos hlen]
  refine ⟨heq, ?_, by rw [heq], by rw [heq], by rw [heq], by rw [heq], by rw [heq],
         by rw [heq], by rw [heq]⟩
  rw [heq]
  simp only [List.length_drop]
  omega

/-- C3 witness: a three-byte staging buffer with no valid frame. -/
theorem C3_resync_skips_one_byte_witness :
    ({ ncIdle with mp3_buffer := [255, 0, 7] } : NativeC.MP3Player).mp3_buffer ≠ [] ∧
    NativeC.decode_mp3_frame neverDecodes { ncIdle with mp3_buffer := [255, 0, 7] } =
      ({ { ncIdle with mp3_buffer := [255, 0, 7] } with
           mp3_buffer := ([255, 0, 7] : List Nat).drop 1 }, false) := by
  have h := C3_resync_skips_one_byte neverDecodes
    { ncIdle with mp3_buffer := [255, 0, 7] } (by decide) rfl
  exact ⟨by decide, h.1⟩

theorem decodeIter_noFrame_eq (dec : List Nat → NativeC.DecodeResult)
    (hdec : ∀ l, dec l = NativeC.DecodeResult.noFrame) (p : NativeC.MP3Player)
    (k : Nat) (hk : k ≤ p.mp3_buffer.length) :
    NativeC.decodeIter dec k p = { p with mp3_buffer := p.mp3_buffer.drop k } := by
  induction k with
  | zero => simp [NativeC.decodeIter]
  | succ k ih =>
    have hk2 : k ≤ p.mp3_buffer.length := Nat.le_of_succ_le hk
    have hstep : NativeC.decodeIter dec (k + 1) p =
        (NativeC.decode_mp3_frame dec (NativeC.decodeIter dec k p)).1 := by
      unfold NativeC.decodeIter
      rw [Function.iterate_succ_apply']
    rw [hstep, ih hk2]
    unfold NativeC.decode_mp3_frame
    have hlen : ¬ (({ p with mp3_buffer := p.mp3_buffer.drop k } :
        NativeC.MP3Player).mp3_buffer.length = 0) := by
      simp only [List.length_drop]
      omega
    rw [if_neg hlen, hdec, if_pos (Nat.pos_of_ne_zero hlen)]
    simp only [List.drop_drop]

theorem fillIter_noFrame_eq (dec : List Nat → NativeC.DecodeResult)
    (hdec : ∀ l, dec l = NativeC.DecodeResult.noFrame) (p : NMP3.MP3Player)
    (k : Nat) (hk : k + 128 ≤ p.mp3Buffer.length) :
    NMP3.fillIter dec k p = { p with mp3Buffer := p.mp3Buffer.drop k } := by
  induction k with
  | zero => simp [NMP3.fillIter]
  | succ k ih =>
    have hk2 : k + 128 ≤ p.mp3Buffer.length := by omega
    have hstep : NMP3.fillIter dec (k + 1) p =
        (NMP3.fillAudioBufferFromMP3AtEof dec (NMP3.fillIter dec k p)).1 := by
      unfold NMP3.fillIter
      rw [Function.iterate_succ_apply']
    rw [hstep, ih hk2]
    unfold NMP3.fillAudioBufferFromMP3AtEof
    have hpos : 0 < (({ p with mp3Buffer := p.mp3Buffer.drop k } :
        NMP3.MP3Player)).mp3Buffer.length := by
      simp only [List.length_drop]
      omega
    rw [if_pos hpos, hdec, if_pos hpos]
    have hge : ¬ (({ p with mp3Buffer := (p.mp3Buffer.drop k).drop 1 } :
        NMP3.MP3Player)).mp3Buffer.length < 128 := by
      simp only [List.length_drop]
      omega
    rw [if_neg hge]
    simp only [List.drop_drop]

/-- C4 counterexample: in the native-mp3-player variant, one failed decode
attempt at end-of-data on a three-byte staging buffer with no valid frame
already closes the file and clears `playing` (the fill level fell below
128), leaving two of the three bytes never attempted — not the claimed
exactly-N attempts. -/
theorem C4_resync_bound_counterexample :
    (NMP3.fillAudioBufferFromMP3AtEof neverDecodes
      { nmIdle with playing := true, fileOpen := true,
                    mp3Buffer := [255, 0, 7] }).1.playing = false ∧
    (NMP3.fillAudioBufferFromMP3AtEof neverDecodes
      { nmIdle with playing := true, fileOpen := true,
                    mp3Buffer := [255, 0, 7] }).1.fileOpen = false ∧
    (NMP3.fillAudioBufferFromMP3AtEof neverDecodes
      { nmIdle with playing := true, fileOpen := true,
                    mp3Buffer := [255, 0, 7] }).1.mp3Buffer.length = 2 := by
  decide

set_option maxRecDepth 4000 in
/-- C4 (amended): with a decoder that never finds a frame and end-of-data
reported, the two MP3 players differ.  In the native C player each of the
first `N` decode attempts consumes exactly one byte while the player keeps
playing with the file open, and the next invocation finds the staging
buffer drained and declares playback finished (`playing` cleared, file
closed) — exactly `N` attempts, no error path.  In the native-mp3-player
variant the finish check runs inside the failure branch: each failed
attempt still consumes exactly one byte, but playback is declared finished
within the first attempt that leaves fewer than 128 staging bytes, so only
`max 1 (N - 127)` attempts occur and up to 127 trailing bytes are
discarded untried. -/
theorem C4_resync_bound_per_variant (dec : List Nat → NativeC.DecodeResult)
    (hdec : ∀ l, dec l = NativeC.DecodeResult.noFrame) (p : NativeC.MP3Player)
    (heof : p.eof = true) (hopen : p.file_open = true) (hplay : p.playing = true)
    (k : Nat) (hk : k ≤ p.mp3_buffer.length)
    (q : NMP3.MP3Player) (hqne : q.mp3Buffer ≠ [])
    (k2 : Nat) (hk2 : k2 < max 1 (q.mp3Buffer.length - 127)) :
    (NativeC.decodeIter dec k p).mp3_buffer.length + k = p.mp3_buffer.length ∧
    (NativeC.decodeIter dec k p).playing = true ∧
    (NativeC.decodeIter dec k p).file_open = true ∧
    (NativeC.decodeIter dec (p.mp3_buffer.length + 1) p).playing = false ∧
    (NativeC.decodeIter dec (p.mp3_buffer.length + 1) p).file_open = false ∧
    NMP3.fillIter dec k2 q = { q with mp3Buffer := q.mp3Buffer.drop k2 } ∧
    NMP3.fillIter dec (max 1 (q.mp3Buffer.length - 127)) q =
      { q with mp3Buffer := q.mp3Buffer.drop (max 1 (q.mp3Buffer.length - 127)),
               fileOpen := false, playing := false, eof := true } := by
  have h1 := decodeIter_noFrame_eq dec hdec p k hk
  have h2 := decodeIter_noFrame_eq dec hdec p p.mp3_buffer.length (Nat.le_refl _)
  have hstep : NativeC.decodeIter dec (p.mp3_buffer.length + 1) p =
      (NativeC.decode_mp3_frame dec (NativeC.decodeIter dec p.mp3_buffer.length p)).1 := by
    unfold NativeC.decodeIter
    rw [Function.iterate_succ_apply']
  have hfin : (NativeC.decode_mp3_frame dec
      (NativeC.decodeIter dec p.mp3_buffer.length p)).1 =
      { NativeC.decodeIter dec p.mp3_buffer.length p with
          file_open := false, playing := false } := by
    rw [h2]
    unfold NativeC.decode_mp3_frame
    rw [if_pos (by simp), if_pos (by simp [heof])]
  have hqpos : 0 < q.mp3Buffer.length := List.length_pos.mpr hqne
  have hq1 : NMP3.fillIter dec k2 q = { q with mp3Buffer := q.mp3Buffer.drop k2 } := by
    rcases Nat.eq_zero_or_pos k2 with hz | hpos2
    · subst hz
      simp [NMP3.fillIter]
    · exact fillIter_noFrame_eq dec hdec q k2 (by omega)
  have hqfin : NMP3.fillIter dec (max 1 (q.mp3Buffer.length - 127)) q =
      { q with mp3Buffer := q.mp3Buffer.drop (max 1 (q.mp3Buffer.length - 127)),
               fileOpen := false, playing := false, eof := true } := by
    have hA : max 1 (q.mp3Buffer.length - 127) =
        (max 1 (q.mp3Buffer.length - 127) - 1) + 1 := by omega
    have hpre : NMP3.fillIter dec (max 1 (q.mp3Buffer.length - 127) - 1) q =
        { q with mp3Buffer := q.mp3Buffer.drop (max 1 (q.mp3Buffer.length - 127) - 1) } := by
      rcases Nat.lt_or_ge q.mp3Buffer.length 129 with hN | hN
      · have : max 1 (q.mp3Buffer.length - 127) - 1 = 0 := by omega
        rw [this]
        simp [NMP3.fillIter]
      · exact fillIter_noFrame_eq dec hdec q _ (by omega)
    have hstep2 : NMP3.fillIter dec (max 1 (q.mp3Buffer.length - 127)) q =
        (NMP3.fillAudioBufferFromMP3AtEof dec
          (NMP3.fillIter dec (max 1 (q.mp3Buffer.length - 127) - 1) q)).1 := by
      rw [hA]
      unfold NMP3.fillIter
      rw [Function.iterate_succ_apply']
      simp only [Nat.add_sub_cancel]
    rw [hstep2, hpre]
    unfold NMP3.fillAudioBufferFromMP3AtEof
    have hpos : 0 < (({ q with
        mp3Buffer := q.mp3Buffer.drop (max 1 (q.mp3Buffer.length - 127) - 1) } :
        NMP3.MP3Player)).mp3Buffer.length := by
      simp only [List.length_drop]
      omega
    rw [if_pos hpos, hdec, if_pos hpos]
    have hlt : (({ q with
        mp3Buffer := (q.mp3Buffer.drop (max 1 (q.mp3Buffer.length - 127) - 1)).drop 1 } :
        NMP3.MP3Player)).mp3Buffer.length < 128 := by
      simp only [List.length_drop]
      omega
    rw [if_pos hlt]
    simp only [List.drop_drop]
    rw [show max 1 (q.mp3Buffer.length - 127) - 1 + 1 =
        max 1 (q.mp3Buffer.length - 127) from by omega]
  refine ⟨?_, ?_, ?_, ?_, ?_, hq1, hqfin⟩
  · rw [h1]; simp only [List.length_drop]; omega
  · rw [h1]; exact hplay
  · rw [h1]; exact hopen
  · rw [hstep, hfin]
  · rw [hstep, hfin]

/-- C4 witness: three-byte garbage staging buffers at end-of-data in both
variants — the native C player takes 3 one-byte attempts then finishes on
the 4th call; the native-mp3-player variant finishes within its single
(max 1 (3-127) = 1) attempt. -/
theorem C4_resync_bound_per_variant_witness :
    (∀ l, neverDecodes l = NativeC.DecodeResult.noFrame) ∧
    (NativeC.decodeIter neverDecodes 3
      { ncIdle with playing := true, file_open := true, eof := true,
                    mp3_buffer := [255, 0, 7] }).mp3_buffer.length + 3 = 3 ∧
    (NativeC.decodeIter neverDecodes 4
      { ncIdle with playing := true, file_open := true, eof := true,
                    mp3_buffer := [255, 0, 7] }).playing = false ∧
    NMP3.fillIter neverDecodes 1
      { nmIdle with playing := true, fileOpen := true, mp3Buffer := [255, 0, 7] } =
      { { nmIdle with playing := true, fileOpen := true, mp3Buffer := [255, 0, 7] } with
          mp3Buffer := ([255, 0, 7] : List Nat).drop 1,
          fileOpen := false, playing := false, eof := true } := by
  have h := C4_resync_bound_per_variant neverDecodes (fun _ => rfl)
    { ncIdle with playing := true, file_open := true, eof := true,
                  mp3_buffer := [255, 0, 7] }
    rfl rfl rfl 3 (by decide)
    { nmIdle with playing := true, fileOpen := true, mp3Buffer := [255, 0, 7] }
    (by decide) 0 (by decide)
  exact ⟨fun _ => rfl, h.1, h.2.2.2.1, h.2.2.2.2.2.2⟩

/-- C5: For a decoded stereo frame, every mono output sample equals
`(L + R) / 2` computed in widened integer arithmetic with C truncating
(toward-zero) division, the `(int16_t)` cast never wrapping because int16
inputs keep the mean in range; the number of mono samples is exactly half
the number of decoded stereo sample values. -/
theorem C5_downmix_mean_truncated (stereo : List Int)
    (hr : ∀ x ∈ stereo, -32768 ≤ x ∧ x ≤ 32767) (i : Nat)
    (hi : i < stereo.length / 2) :
    (NativeC.mp3_decoder_convert_to_mono stereo).length = stereo.length / 2 ∧
    (NativeC.mp3_decoder_convert_to_mono stereo).getD i 0 =
      Int.tdiv (stereo.getD (i * 2) 0 + stereo.getD (i * 2 + 1) 0) 2 := by
  constructor
  · simp [NativeC.mp3_decoder_convert_to_mono]
  · unfold NativeC.mp3_decoder_convert_to_mono
    rw [getD_map_range _ _ _ hi]
    have h1 : i * 2 < stereo.length := by omega
    have h2 : i * 2 + 1 < stereo.length := by omega
    have hL : stereo.getD (i * 2) 0 ∈ stereo := by
      rw [List.getD_eq_getElem _ _ h1]
      exact List.getElem_mem _
    have hR : stereo.getD (i * 2 + 1) 0 ∈ stereo := by
      rw [List.getD_eq_getElem _ _ h2]
      exact List.getElem_mem _
    obtain ⟨hL1, hL2⟩ := hr _ hL
    obtain ⟨hR1, hR2⟩ := hr _ hR
    have hb : -32768 ≤ Int.tdiv (stereo.getD (i * 2) 0 + stereo.getD (i * 2 + 1) 0) 2 ∧
        Int.tdiv (stereo.getD (i * 2) 0 + stereo.getD (i * 2 + 1) 0) 2 ≤ 32767 := by
      rw [tdiv_two_cases]
      split <;> constructor <;> omega
    exact toInt16_eq_of_bounds _ hb.1 hb.2

/-- C5 witness: four stereo sample values, including a negative odd sum
exercising truncation toward zero. -/
theorem C5_downmix_mean_truncated_witness :
    (∀ x ∈ ([1000, 2001, -5, -6] : List Int), -32768 ≤ x ∧ x ≤ 32767) ∧
    (NativeC.mp3_decoder_convert_to_mono [1000, 2001, -5, -6]).length = 2 ∧
    (NativeC.mp3_decoder_convert_to_mono [1000, 2001, -5, -6]).getD 1 0 =
      Int.tdiv (([1000, 2001, -5, -6] : List Int).getD 2 0 +
                ([1000, 2001, -5, -6] : List Int).getD 3 0) 2 := by
  have h := C5_downmix_mean_truncated [1000, 2001, -5, -6] (by decide) 1 (by decide)
  exact ⟨by decide, h.1, h.2⟩

/-- C6 counterexample: the claim says no fill is attempted at or above the
75% watermark, but the WAV player's fill gate is `available > capacity*3/4`,
so with occupancy exactly at the watermark (3072 of 4096) the refill step is
attempted. -/
theorem C6_watermark_counterexample :
    Pio.BUFFER_SIZE * 3 / 4 = 3072 ∧
    ({ pioIdle with playing := true, dataSize := 100000,
                    bufferAvailable := 3072 } : Pio.WavPlayer).bufferAvailable =
      Pio.BUFFER_SIZE * 3 / 4 ∧
    (Pio.core1_fillBuffer []
      { pioIdle with playing := true, dataSize := 100000,
                     bufferAvailable := 3072 }).2 = true := by
  refine ⟨by decide, by decide, ?_⟩
  rfl

/-- C6 (amended): in the MP3 players (capacity 32768) a refill/decode step
is attempted on a streaming tick iff occupancy is strictly below the
watermark 24576 = 75% of capacity; in the WAV player (capacity 4096) the
fill step is skipped only strictly above the watermark, i.e. it is
attempted iff occupancy ≤ 3072, including at exactly the watermark. -/
theorem C6_watermark_gating (dec : List Nat → NativeC.DecodeResult) (fd : List Nat)
    (p : NativeC.MP3Player) (hp : p.playing = true) (hs : p.stop_requested = false)
    (f : List Int) (w : Pio.WavPlayer) :
    ((NativeC.core1_tick dec fd p).2 = true ↔ p.available < 24576) ∧
    ((Pio.core1_fillBuffer f w).2 = true ↔ w.bufferAvailable ≤ 3072) := by
  constructor
  · unfold NativeC.core1_tick
    simp only [hp, hs, Bool.not_false, Bool.and_self, if_true]
    by_cases hA : p.available < NativeC.AUDIO_BUFFER_SIZE * 3 / 4
    · rw [if_pos hA]
      have h24 : p.available < 24576 := by
        simp only [NativeC.AUDIO_BUFFER_SIZE] at hA
        omega
      simp only [h24, iff_true]
      split <;> split <;> rfl
    · rw [if_neg hA]
      have h24 : ¬ p.available < 24576 := by
        simp only [NativeC.AUDIO_BUFFER_SIZE] at hA
        omega
      split <;> simp [h24]
  · by_cases hgt : w.bufferAvailable > Pio.BUFFER_SIZE * 3 / 4
    · unfold Pio.core1_fillBuffer
      rw [if_pos hgt]
      have hnle : ¬ w.bufferAvailable ≤ 3072 := by
        simp only [Pio.BUFFER_SIZE] at hgt
        omega
      simpa using hnle
    · unfold Pio.core1_fillBuffer
      rw [if_neg hgt]
      have hle : w.bufferAvailable ≤ 3072 := by
        simp only [Pio.BUFFER_SIZE] at hgt
        omega
      simp only [hle, iff_true]
      split
      · rfl
      · split <;> rfl

/-- C6 witness: the spec scenario — occupancy 24000 with capacity 32768
resumes filling (24000 < 24576), and the WAV player at exactly its
watermark 3072 also proceeds. -/
theorem C6_watermark_gating_witness :
    ({ ncIdle with playing := true, available := 24000 } : NativeC.MP3Player).playing = true ∧
    ({ ncIdle with playing := true, available := 24000 } :
        NativeC.MP3Player).stop_requested = false ∧
    ((NativeC.core1_tick neverDecodes []
        { ncIdle with playing := true, available := 24000 }).2 = true ↔ 24000 < 24576) ∧
    ((Pio.core1_fillBuffer []
        { pioIdle with playing := true, dataSize := 4096,
                       bufferAvailable := 3072 }).2 = true ↔ 3072 ≤ 3072) := by
  have h := C6_watermark_gating neverDecodes []
    { ncIdle with playing := true, available := 24000 } rfl rfl []
    { pioIdle with playing := true, dataSize := 4096, bufferAvailable := 3072 }
  exact ⟨rfl, rfl, h.1, h.2⟩

theorem applyStep16_state (s1 s2 : PlaySd.PlaySdWav)
    (h : PlaySd.applyStep16 s1 = some s2) : s2.state = s1.state := by
  unfold PlaySd.applyStep16 at h
  split at h
  · split at h
    · split at h
      · simp only [Option.some.injEq] at h
        rw [← h]
      · simp at h
    · simp at h
  · simp only [Option.some.injEq] at h
    rw [← h]

theorem applyStep17_state (s2 : PlaySd.PlaySdWav) :
    (PlaySd.applyStep17 s2).state = s2.state := by
  unfold PlaySd.applyStep17
  split
  · split <;> rfl
  · rfl

theorem applyStep18_state (s3 s4 : PlaySd.PlaySdWav)
    (h : PlaySd.applyStep18 s3 = some s4) :
    s4.state = PlaySd.STATE_PARSE3 ∨ s4.state = s3.state := by
  unfold PlaySd.applyStep18 at h
  split at h
  · split at h
    · split at h
      · split at h
        · simp only [Option.some.injEq] at h
          left
          rw [← h]
        · simp at h
      · simp at h
    · simp at h
  · simp only [Option.some.injEq] at h
    right
    rw [← h]

theorem parseIterOutcome_inl (s1 t : PlaySd.PlaySdWav)
    (h : PlaySd.parseIterOutcome s1 = Sum.inl t) : t.state = PlaySd.STATE_STOP := by
  unfold PlaySd.parseIterOutcome at h
  split at h
  · simp only [Sum.inl.injEq] at h
    rw [← h]
  · split at h
    · simp only [Sum.inl.injEq] at h
      rw [← h]
    · simp at h

theorem parseIterOutcome_inr (s1 t : PlaySd.PlaySdWav)
    (h : PlaySd.parseIterOutcome s1 = Sum.inr t) :
    t.state = PlaySd.STATE_PARSE3 ∨ t.state = s1.state := by
  unfold PlaySd.parseIterOutcome at h
  split at h
  · simp at h
  · rename_i s2 h16
    split at h
    · simp at h
    · rename_i s4 h18
      simp only [Sum.inr.injEq] at h
      subst h
      rcases applyStep18_state _ _ h18 with hh | hh
      · left
        exact hh
      · right
        rw [hh, applyStep17_state, applyStep16_state _ _ h16]

theorem parseLoop_no_play (fuel : Nat) : ∀ s : PlaySd.PlaySdWav,
    s.state ≠ PlaySd.STATE_PLAY →
    (PlaySd.parseLoop fuel s).1.state ≠ PlaySd.STATE_PLAY ∧
    (PlaySd.parseLoop fuel s).2 = false := by
  induction fuel with
  | zero =>
    intro s hs
    unfold PlaySd.parseLoop
    rw [if_neg hs]
    exact ⟨hs, rfl⟩
  | succ fuel ih =>
    intro s hs
    unfold PlaySd.parseLoop
    rw [if_neg hs]
    by_cases hbuf : s.buffer_length ≤ s.buffer_offset
    · rw [if_pos hbuf]
      exact ⟨hs, rfl⟩
    · rw [if_neg hbuf]
      by_cases hlt : (PlaySd.writeByte s).header_offset < 16
      · rw [if_pos hlt]
        exact ih _ hs
      · rw [if_neg hlt]
        rcases ho : PlaySd.parseIterOutcome (PlaySd.writeByte s) with sAbort | sNext
        · refine ⟨?_, rfl⟩
          show sAbort.state ≠ PlaySd.STATE_PLAY
          rw [parseIterOutcome_inl _ _ ho]
          decide
        · show (PlaySd.parseLoop fuel sNext).1.state ≠ PlaySd.STATE_PLAY ∧
            (PlaySd.parseLoop fuel sNext).2 = false
          apply ih
          rcases parseIterOutcome_inr _ _ ho with h | h
          · rw [h]
            decide
          · rw [h]
            exact hs

/-- C7 counterexample: a play request on a 16-byte RIFF/WAVE file whose
stream ends with no data chunk (final tag "LIST") is never stopped or
marked not playing: after one update the whole file has been read and the
parser sits in `STATE_PARSE2`; every further update leaves the state
unchanged (a fixpoint), with `isPlaying()` true forever. -/
theorem C7_header_validation_counterexample :
    (PlaySd.update wavNoData (PlaySd.play true sdwIdle)).state = PlaySd.STATE_PARSE2 ∧
    (PlaySd.update wavNoData (PlaySd.play true sdwIdle)).file_position = wavNoData.length ∧
    PlaySd.update wavNoData (PlaySd.update wavNoData (PlaySd.play true sdwIdle)) =
      PlaySd.update wavNoData (PlaySd.play true sdwIdle) ∧
    PlaySd.isPlaying (PlaySd.update wavNoData (PlaySd.play true sdwIdle)) = true := by
  decide

/-- C7 (amended): in the SDIO WAV player a play request stays in the
playing state after `core1_openFile` exactly when the file opened and the
header validated — RIFF and WAVE magic present, `audioFormat = 1` (linear
PCM), 16-bit samples, and a "data" chunk found before stream end; on any
failed check the file is closed, `playing` is cleared, and a cleared
player is never serviced by the consumer (channel count is recorded but
not constrained).  The `AudioPlaySdWav` parser validates RIFF/WAVE, PCM,
stereo and 16-bit and aborts to the stopped state on those failures, but
its `parse_format` can never reach `STATE_PLAY` from a parse state (it
always returns false with the state still not `STATE_PLAY`), so streaming
never starts there — and when the stream ends without a data chunk it
stalls in a parse state with `isPlaying()` still true instead of being
stopped (the counterexample). -/
theorem C7_header_validation_gates_playing (openOk : Bool) (hdr : Pio.WavHeader)
    (chunks : List (List Nat × Nat)) (w : Pio.WavPlayer) (hw : w.playing = true)
    (w2 : Pio.WavPlayer) (hw2 : w2.playing = false)
    (s : PlaySd.PlaySdWav) (hs : s.state ≠ PlaySd.STATE_PLAY) :
    ((Pio.core1_openFile openOk hdr chunks w).playing = true ↔
      openOk = true ∧ hdr.riff = Pio.riffTag ∧ hdr.wave = Pio.waveTag ∧
      hdr.audioFormat = 1 ∧ hdr.bitsPerSample = 16 ∧
      (Pio.findDataChunk chunks).isSome = true) ∧
    ((Pio.core1_openFile openOk hdr chunks w).playing = false →
      (Pio.core1_openFile openOk hdr chunks w).fileOpen = false) ∧
    Pio.consumerFire w2 = (none, w2) ∧
    (PlaySd.parse_format s).1.state ≠ PlaySd.STATE_PLAY ∧
    (PlaySd.parse_format s).2 = false := by
  refine ⟨?_, ?_, ?_, (parseLoop_no_play _ s hs).1, (parseLoop_no_play _ s hs).2⟩
  · unfold Pio.core1_openFile
    cases openOk with
    | false => simp
    | true =>
      rw [if_neg (by simp)]
      by_cases hv : hdr.riff = Pio.riffTag ∧ hdr.wave = Pio.waveTag ∧
          hdr.audioFormat = 1 ∧ hdr.bitsPerSample = 16
      · rw [if_neg (by simpa using hv)]
        rcases hfind : Pio.findDataChunk chunks with _ | sz
        · simp [hv, hfind]
        · simp [hv, hfind, hw]
      · rw [if_pos (by simpa using hv)]
        simp only [Bool.false_eq_true, false_iff]
        intro hcon
        exact hv ⟨hcon.2.1, hcon.2.2.1, hcon.2.2.2.1, hcon.2.2.2.2.1⟩
  · unfold Pio.core1_openFile
    cases openOk with
    | false => intro _; rfl
    | true =>
      rw [if_neg (by simp)]
      by_cases hv : hdr.riff = Pio.riffTag ∧ hdr.wave = Pio.waveTag ∧
          hdr.audioFormat = 1 ∧ hdr.bitsPerSample = 16
      · rw [if_neg (by simpa using hv)]
        rcases hfind : Pio.findDataChunk chunks with _ | sz
        · intro _; rfl
        · intro hcon
          rw [hw] at hcon
          exact absurd hcon (by simp)
      · rw [if_pos (by simpa using hv)]
        intro _; rfl
  · unfold Pio.consumerFire
    rw [if_neg (by simp [hw2])]

/-- C7 witness: a valid 16-bit PCM header with a data chunk keeps the
player playing; flipping the format code to 2 stops it; the AudioPlaySdWav
object fresh from a play request never reaches the play state. -/
theorem C7_header_validation_gates_playing_witness :
    (Pio.core1_openFile true
      { riff := Pio.riffTag, fileSize := 1000, wave := Pio.waveTag,
        fmt := [102, 109, 116, 32], fmtSize := 16, audioFormat := 1,
        numChannels := 2, sampleRate := 44100, byteRate := 176400,
        blockAlign := 4, bitsPerSample := 16 }
      [([76, 73, 83, 84], 26), (Pio.dataTag, 88200)]
      { pioIdle with playing := true }).playing = true ∧
    (Pio.core1_openFile true
      { riff := Pio.riffTag, fileSize := 1000, wave := Pio.waveTag,
        fmt := [102, 109, 116, 32], fmtSize := 16, audioFormat := 2,
        numChannels := 2, sampleRate := 44100, byteRate := 176400,
        blockAlign := 4, bitsPerSample := 16 }
      [(Pio.dataTag, 88200)]
      { pioIdle with playing := true }).playing = false ∧
    (PlaySd.parse_format (PlaySd.play true sdwIdle)).1.state ≠ PlaySd.STATE_PLAY ∧
    (PlaySd.parse_format (PlaySd.play true sdwIdle)).2 = false := by
  have h1 := C7_header_validation_gates_playing true
    { riff := Pio.riffTag, fileSize := 1000, wave := Pio.waveTag,
      fmt := [102, 109, 116, 32], fmtSize := 16, audioFormat := 1,
      numChannels := 2, sampleRate := 44100, byteRate := 176400,
      blockAlign := 4, bitsPerSample := 16 }
    [([76, 73, 83, 84], 26), (Pio.dataTag, 88200)]
    { pioIdle with playing := true } rfl pioIdle rfl
    (PlaySd.play true sdwIdle) (by decide)
  have h2 := C7_header_validation_gates_playing true
    { riff := Pio.riffTag, fileSize := 1000, wave := Pio.waveTag,
      fmt := [102, 109, 116, 32], fmtSize := 16, audioFormat := 2,
      numChannels := 2, sampleRate := 44100, byteRate := 176400,
      blockAlign := 4, bitsPerSample := 16 }
    [(Pio.dataTag, 88200)]
    { pioIdle with playing := true } rfl pioIdle rfl
    (PlaySd.play true sdwIdle) (by decide)
  refine ⟨h1.1.mpr ⟨rfl, rfl, rfl, rfl, rfl, by decide⟩, ?_, h1.2.2.2.1, h1.2.2.2.2⟩
  have hnot : ¬ (Pio.core1_openFile true
      { riff := Pio.riffTag, fileSize := 1000, wave := Pio.waveTag,
        fmt := [102, 109, 116, 32], fmtSize := 16, audioFormat := 2,
        numChannels := 2, sampleRate := 44100, byteRate := 176400,
        blockAlign := 4, bitsPerSample := 16 }
      [(Pio.dataTag, 88200)]
      { pioIdle with playing := true }).playing = true := by
    rw [h2.1]
    intro hcon
    exact absurd hcon.2.2.2.1 (by decide)
  cases hpl : (Pio.core1_openFile true
      { riff := Pio.riffTag, fileSize := 1000, wave := Pio.waveTag,
        fmt := [102, 109, 116, 32], fmtSize := 16, audioFormat := 2,
        numChannels := 2, sampleRate := 44100, byteRate := 176400,
        blockAlign := 4, bitsPerSample := 16 }
      [(Pio.dataTag, 88200)]
      { pioIdle with playing := true }).playing with
  | false => rfl
  | true => exact absurd hpl hnot

/-- C8 counterexample: the WAV player's `stopPlayer`, issued on an idle
player (not playing, no stop pending), is not a no-op — it sets
`stopRequested` to true, changing the player state. -/
theorem C8_stop_idempotence_counterexample :
    pioIdle.playing = false ∧ pioIdle.stopRequested = false ∧
    (Pio.stopPlayer pioIdle).stopRequested = true ∧
    Pio.stopPlayer pioIdle ≠ pioIdle := by
  decide

/-- C8 (amended): issuing stop through the guarded entry points on a player
that is not playing is a no-op: the native C `process_command` stop branch
calls `stop_playback` only when playing, the multi-stream MP3 `stopPlayer`
returns immediately when not playing, and the WAV player's `stopAll` skips
players that are not playing.  Only the WAV player's raw `stopPlayer`
helper sets `stop_requested` unconditionally (the counterexample). -/
theorem C8_stop_noop_on_guarded_paths (p : NativeC.MP3Player) (hp : p.playing = false)
    (q : NMP3.MP3Player) (hq : q.playing = false)
    (w : Pio.WavPlayer) (hw : w.playing = false) :
    NativeC.process_command_stop p = p ∧ NMP3.stopPlayer q = q ∧ Pio.stopAllStep w = w := by
  refine ⟨?_, ?_, ?_⟩
  · unfold NativeC.process_command_stop
    rw [if_neg (by simp [hp])]
  · unfold NMP3.stopPlayer
    rw [if_pos hq]
  · unfold Pio.stopAllStep
    rw [if_neg (by simp [hw])]

/-- C8 witness: the guarded stop paths on concrete idle players. -/
theorem C8_stop_noop_on_guarded_paths_witness :
    ncIdle.playing = false ∧ nmIdle.playing = false ∧ pioIdle.playing = false ∧
    (NativeC.process_command_stop ncIdle = ncIdle ∧ NMP3.stopPlayer nmIdle = nmIdle ∧
     Pio.stopAllStep pioIdle = pioIdle) :=
  ⟨rfl, rfl, rfl, C8_stop_noop_on_guarded_paths ncIdle rfl nmIdle rfl pioIdle rfl⟩

/-- C9 counterexample: in the native C player the consumer invoked while
not playing writes a full chunk of value-0 silence into the I2S DMA
buffer — zero-valued samples reach the sink, with no replacement by 1. -/
theorem C9_silence_value_counterexample :
    ncIdle.playing = false ∧
    (NativeC.audio_callback 4 ncIdle).1 = List.replicate 4 0 ∧
    (0 : Int) ∈ (NativeC.audio_callback 4 ncIdle).1 := by
  decide

theorem sampleOf_ne_zero (b : Option (List Int)) (i : Nat) : PicoAudio.sampleOf b i ≠ 0 := by
  cases b with
  | none => simp [PicoAudio.sampleOf]
  | some d =>
    simp only [PicoAudio.sampleOf]
    split
    · simp
    · assumption

/-- C9 (amended): in the pico-audio `AudioOutputI2S::update` sink every
value written to the I2S peripheral is nonzero: with no input block a full
chunk of value 1 (scaled by 65536) is emitted, and an input sample equal
to 0 is replaced by 1 before the write; the native C player's DMA callback,
by contrast, emits true zeros (the counterexample). -/
theorem C9_antipop_nonzero_sink (n : Nat) (left right : Option (List Int))
    (v : Int) (hv : v ∈ PicoAudio.update n left right)
    (j : Nat) (hj : j < 2 * n)
    (d : List Int) (hl : left = some d) (i : Nat) (hi : i < n) (hz : d.getD i 0 = 0) :
    v ≠ 0 ∧
    (PicoAudio.update n none none).getD j 0 = 65536 ∧
    (PicoAudio.update n left right).getD (2 * i) 0 = 1 * 65536 := by
  refine ⟨?_, ?_, ?_⟩
  · unfold PicoAudio.update at hv
    obtain ⟨a, _, ha⟩ := List.mem_map.mp hv
    rw [← ha]
    split
    · exact mul_ne_zero (sampleOf_ne_zero left _) (by norm_num)
    · exact mul_ne_zero (sampleOf_ne_zero right _) (by norm_num)
  · unfold PicoAudio.update
    rw [getD_map_range _ _ _ hj]
    split <;> rfl
  · unfold PicoAudio.update
    rw [getD_map_range _ _ _ (by omega)]
    rw [if_pos (by omega)]
    have h2i : 2 * i / 2 = i := by omega
    rw [h2i, hl]
    show (if d.getD i 0 = 0 then (1 : Int) else d.getD i 0) * 65536 = 1 * 65536
    rw [if_pos hz]

/-- C9 witness: a two-sample block containing a zero sample. -/
theorem C9_antipop_nonzero_sink_witness :
    ((65536 : Int) ∈ PicoAudio.update 2 (some [0, 7]) none) ∧
    (65536 : Int) ≠ 0 ∧
    (PicoAudio.update 2 none none).getD 3 0 = 65536 ∧
    (PicoAudio.update 2 (some [0, 7]) none).getD 0 0 = 1 * 65536 := by
  have h := C9_antipop_nonzero_sink 2 (some [0, 7]) none 65536 (by decide) 3 (by decide)
    [0, 7] rfl 0 (by decide) (by decide)
  exact ⟨by decide, h.1, h.2.1, h.2.2⟩

theorem writeSamples_wp (xs : List Int) (buf : List Int) (wp : Nat) (hne : xs ≠ []) :
    (Pio.writeSamples buf wp xs).2 = (wp + xs.length) % Pio.BUFFER_SIZE := by
  induction xs generalizing buf wp with
  | nil => cases hne rfl
  | cons x xs ih =>
    simp only [Pio.writeSamples]
    rcases xs with _ | ⟨y, ys⟩
    · simp only [Pio.writeSamples, List.length_cons, List.length_nil]
    · rw [ih _ _ (by simp)]
      simp only [List.length_cons, Pio.BUFFER_SIZE]
      omega

/-- C10: In the WAV player's stereo fill step with enough data left in the
data chunk, one call writes exactly `samplesToRead / 2` downmixed samples
into the circular buffer (the write index and the file cursor advance by
`samplesToRead / 2` samples and `samplesToRead` source samples
respectively), yet `bufferAvailable` grows by `samplesToRead` and
`dataPosition` by `samplesToRead * 2` bytes — the occupancy counter grows
by exactly twice the number of samples actually written (here
`samplesToRead = min(BUFFER_SIZE - bufferAvailable, 2048)`, assumed even as
it is on every state reachable from an empty buffer). -/
theorem C10_stereo_fill_double_counts (f : List Int) (w : Pio.WavPlayer)
    (hch : w.numChannels = 2)
    (hgate : ¬ w.bufferAvailable > Pio.BUFFER_SIZE * 3 / 4)
    (hdata : min (Pio.BUFFER_SIZE - w.bufferAvailable) 2048 * 2 ≤ w.dataSize - w.dataPosition)
    (heven : min (Pio.BUFFER_SIZE - w.bufferAvailable) 2048 % 2 = 0) :
    ((Pio.core1_fillBuffer f w).1).bufferAvailable =
      w.bufferAvailable + min (Pio.BUFFER_SIZE - w.bufferAvailable) 2048 ∧
    ((Pio.core1_fillBuffer f w).1).dataPosition =
      w.dataPosition + min (Pio.BUFFER_SIZE - w.bufferAvailable) 2048 * 2 ∧
    ((Pio.core1_fillBuffer f w).1).bufferWritePos =
      (w.bufferWritePos + min (Pio.BUFFER_SIZE - w.bufferAvailable) 2048 / 2) %
        Pio.BUFFER_SIZE ∧
    ((Pio.core1_fillBuffer f w).1).fileCursor =
      w.fileCursor + 2 * (min (Pio.BUFFER_SIZE - w.bufferAvailable) 2048 / 2) ∧
    w.bufferAvailable + min (Pio.BUFFER_SIZE - w.bufferAvailable) 2048 =
      w.bufferAvailable + 2 * (min (Pio.BUFFER_SIZE - w.bufferAvailable) 2048 / 2) := by
  have hle : w.bufferAvailable ≤ 3072 := by
    simp only [Pio.BUFFER_SIZE] at hgate
    omega
  have hs1024 : 1024 ≤ min (Pio.BUFFER_SIZE - w.bufferAvailable) 2048 := by
    simp only [Pio.BUFFER_SIZE]
    omega
  have hrem : ¬ (w.dataSize - w.dataPosition = 0) := by omega
  have hch1 : ¬ (w.numChannels = 1) := by omega
  unfold Pio.core1_fillBuffer
  rw [if_neg hgate, if_neg hrem, if_neg hch1]
  have hbtr : min (min (Pio.BUFFER_SIZE - w.bufferAvailable) 2048 * 2)
      (w.dataSize - w.dataPosition) = min (Pio.BUFFER_SIZE - w.bufferAvailable) 2048 * 2 :=
    Nat.min_eq_left hdata
  have hmono : ((List.range (min (min (Pio.BUFFER_SIZE - w.bufferAvailable) 2048 * 2)
      (w.dataSize - w.dataPosition) / 2 / 2)).map fun i =>
        toInt16 (Int.tdiv (f.getD (w.fileCursor + 2 * i) 0 +
          f.getD (w.fileCursor + 2 * i + 1) 0) 2)) ≠ [] := by
    simp only [ne_eq, List.map_eq_nil_iff, List.range_eq_nil]
    omega
  refine ⟨?_, ?_, ?_, ?_, by omega⟩
  · show w.bufferAvailable + min (min (Pio.BUFFER_SIZE - w.bufferAvailable) 2048 * 2)
      (w.dataSize - w.dataPosition) / 2 =
      w.bufferAvailable + min (Pio.BUFFER_SIZE - w.bufferAvailable) 2048
    omega
  · show w.dataPosition + min (min (Pio.BUFFER_SIZE - w.bufferAvailable) 2048 * 2)
      (w.dataSize - w.dataPosition) =
      w.dataPosition + min (Pio.BUFFER_SIZE - w.bufferAvailable) 2048 * 2
    omega
  · show (Pio.writeSamples w.buffer w.bufferWritePos _).2 = _
    rw [writeSamples_wp _ _ _ hmono]
    simp only [List.length_map, List.length_range]
    simp only [Pio.BUFFER_SIZE] at hdata heven ⊢
    omega
  · show w.fileCursor + 2 * (min (min (Pio.BUFFER_SIZE - w.bufferAvailable) 2048 * 2)
      (w.dataSize - w.dataPosition) / 2 / 2) =
      w.fileCursor + 2 * (min (Pio.BUFFER_SIZE - w.bufferAvailable) 2048 / 2)
    omega

/-- C10 witness: an empty buffer, a stereo file with 8192 data bytes:
`samplesToRead = 2048`, 1024 samples written, occupancy +2048,
`dataPosition` +4096. -/
theorem C10_stereo_fill_double_counts_witness :
    ({ pioIdle with playing := true, numChannels := 2, dataSize := 8192 } :
        Pio.WavPlayer).numChannels = 2 ∧
    min (Pio.BUFFER_SIZE - 0) 2048 * 2 ≤ 8192 ∧
    ((Pio.core1_fillBuffer []
        { pioIdle with playing := true, numChannels := 2,
                       dataSize := 8192 }).1).bufferAvailable = 2048 ∧
    ((Pio.core1_fillBuffer []
        { pioIdle with playing := true, numChannels := 2,
                       dataSize := 8192 }).1).dataPosition = 4096 ∧
    ((Pio.core1_fillBuffer []
        { pioIdle with playing := true, numChannels := 2,
                       dataSize := 8192 }).1).bufferWritePos = 1024 ∧
    (2048 : Nat) = 2 * 1024 := by
  have h := C10_stereo_fill_double_counts []
    { pioIdle with playing := true, numChannels := 2, dataSize := 8192 }
    rfl (by decide) (by decide) (by decide)
  exact ⟨rfl, by decide, h.1, h.2.1, h.2.2.1, by decide⟩
